import Mathlib

set_option maxRecDepth 100000

/-!
Verification of the core of `1999scraper.py`: the streaming HTML table
extractor (`_TableExtractor`) and the header-driven row classifier
(`parse_rows`), shallowly embedded over token streams.

Strings are modelled as `List Char`.  The Python stdlib `HTMLParser`
tokenizer is external to the repository; documents are therefore embedded
at the level of the event stream it delivers to the extractor's callbacks
(`handle_starttag` / `handle_endtag` / `handle_data`).
-/

namespace Scraper

/-- Strings of the scraped pages, modelled as lists of characters. -/
abbrev Str := List Char

/-- Shorthand to write a `Str` from a string literal. -/
def str (s : String) : Str := s.toList

/-- Python `\s` on the ASCII range (the inputs of interest are ASCII). -/
def isWs (c : Char) : Bool :=
  c = ' ' || c = '\t' || c = '\n' || c = '\r' || c = '\x0b' || c = '\x0c'

/-- ASCII model of Python `str.lower` on one character. -/
def lowerChar (c : Char) : Char :=
  if 'A' ≤ c ∧ c ≤ 'Z' then Char.ofNat (c.toNat + 32) else c

/-- ASCII model of Python `str.lower`. -/
def lowerStr (s : Str) : Str := s.map lowerChar

/-- The run-collapsing pass of `re.sub(r"\s+", " ", s)`: every maximal run
of whitespace becomes a single space.  The flag records whether the
previous character was whitespace. -/
def collapse : Bool → Str → Str
  | _, [] => []
  | pw, c :: cs =>
    if isWs c then
      if pw then collapse true cs else ' ' :: collapse true cs
    else c :: collapse false cs

/-- Python `str.strip()`: drop leading and trailing whitespace. -/
def pyStrip (s : Str) : Str :=
  ((s.dropWhile isWs).reverse.dropWhile isWs).reverse

/-- `_norm_space`: `re.sub(r"\s+", " ", s or "").strip()`. -/
def norm_space (s : Str) : Str := pyStrip (collapse false s)

/-- `_safe_psv_field`: `(s or "").replace("|", " ").strip()`. -/
def safe_psv_field (s : Str) : Str :=
  pyStrip (s.map (fun c => if c = '|' then ' ' else c))

/-- A calendar date as `datetime.date` exposes it to `Row.to_psv`. -/
structure PyDate where
  year : Nat
  month : Nat
  day : Nat
deriving DecidableEq, Repr

/-- The `Row` dataclass (an OutputRecord of the spec). -/
structure Row where
  report_date : PyDate
  unit : Str
  power : Str
  reason : Str
deriving DecidableEq, Repr

/-- Decimal rendering of a `Nat`, as Python f-string interpolation of an int. -/
def natStr (n : Nat) : Str := (Nat.repr n).toList

/-- `Row.to_psv`: `f"{month}/{day}/{year}|{safe(unit)}|{safe(power)}|{safe(reason)}"`. -/
def Row.to_psv (r : Row) : Str :=
  natStr r.report_date.month ++ ['/'] ++ natStr r.report_date.day ++ ['/']
    ++ natStr r.report_date.year
    ++ ['|'] ++ safe_psv_field r.unit
    ++ ['|'] ++ safe_psv_field r.power
    ++ ['|'] ++ safe_psv_field r.reason

/-- One event of the stdlib HTML tokenizer, as delivered to the extractor's
callbacks: a start tag, an end tag, or character data. -/
inductive Tok where
  | startTag (tag : Str)
  | endTag (tag : Str)
  | textData (s : Str)
deriving DecidableEq, Repr

/-- The mutable state of a `_TableExtractor` instance. -/
structure ExtractorState where
  in_table : Nat
  in_tr : Bool
  in_cell : Bool
  cell_buf : List Str
  current_row : List Str
  current_table : List (List Str)
  tables : List (List (List Str))
deriving DecidableEq, Repr

/-- The state `_TableExtractor.__init__` sets up. -/
def initState : ExtractorState :=
  { in_table := 0, in_tr := false, in_cell := false, cell_buf := [],
    current_row := [], current_table := [], tables := [] }

/-- `_TableExtractor.handle_starttag` (attributes are never consulted). -/
def handle_starttag (tag0 : Str) (st : ExtractorState) : ExtractorState :=
  let tag := lowerStr tag0
  let st :=
    if tag = str "table" then
      let st1 := { st with in_table := st.in_table + 1 }
      if st1.in_table = 1 then { st1 with current_table := [] } else st1
    else st
  let st :=
    if st.in_table ≥ 1 ∧ tag = str "tr" then
      { st with in_tr := true, current_row := [] }
    else st
  let st :=
    if st.in_table ≥ 1 ∧ st.in_tr = true ∧ (tag = str "td" ∨ tag = str "th") then
      { st with in_cell := true, cell_buf := [] }
    else st
  let st :=
    if st.in_table ≥ 1 ∧ st.in_cell = true ∧ (tag = str "br" ∨ tag = str "p") then
      { st with cell_buf := st.cell_buf ++ [[' ']] }
    else st
  st

/-- `_TableExtractor.handle_endtag`. -/
def handle_endtag (tag0 : Str) (st : ExtractorState) : ExtractorState :=
  let tag := lowerStr tag0
  let st :=
    if st.in_table ≥ 1 ∧ st.in_tr = true ∧ (tag = str "td" ∨ tag = str "th")
        ∧ st.in_cell = true then
      { st with in_cell := false,
                current_row := st.current_row ++ [norm_space st.cell_buf.flatten],
                cell_buf := [] }
    else st
  let st :=
    if st.in_table ≥ 1 ∧ tag = str "tr" ∧ st.in_tr = true then
      { st with in_tr := false,
                current_table :=
                  if st.current_row.any (fun c => pyStrip c ≠ []) then
                    st.current_table ++ [st.current_row]
                  else st.current_table,
                current_row := [] }
    else st
  let st :=
    if tag = str "table" ∧ st.in_table ≥ 1 then
      let st1 := { st with in_table := st.in_table - 1 }
      if st1.in_table = 0 then
        { st1 with
            tables :=
              if st1.current_table ≠ [] then st1.tables ++ [st1.current_table]
              else st1.tables,
            current_table := [] }
      else st1
    else st
  st

/-- `_TableExtractor.handle_data`. -/
def handle_data (s : Str) (st : ExtractorState) : ExtractorState :=
  if st.in_table ≥ 1 ∧ st.in_cell = true then
    { st with cell_buf := st.cell_buf ++ [s] }
  else st

/-- Dispatch of one tokenizer event to the matching callback. -/
def feedTok (st : ExtractorState) (t : Tok) : ExtractorState :=
  match t with
  | .startTag tag => handle_starttag tag st
  | .endTag tag => handle_endtag tag st
  | .textData s => handle_data s st

/-- `HTMLParser.feed`: deliver the document's events in order. -/
def feed (st : ExtractorState) (ts : List Tok) : ExtractorState :=
  ts.foldl feedTok st

/-- `_find_col_idx`: index of the first header cell satisfying the predicate. -/
def find_col_idx (headers : List Str) (pred : Str → Bool) : Option Nat :=
  headers.findIdx? pred

/-- The lower-cased, whitespace-normalized view of a row used by the
header scan: `[_norm_space(c).lower() for c in row]`. -/
def lowerRow (row : List Str) : List Str :=
  row.map (fun c => lowerStr (norm_space c))

/-- The header-detection predicate of `parse_rows`: some cell equals
`"unit"` and some cell starts with `"power"` (or equals it). -/
def rowQualifies (lowered : List Str) : Bool :=
  lowered.any (fun c => c = str "unit") &&
  lowered.any (fun c => (str "power").isPrefixOf c || c = str "power")

/-- The header-discovery loop of `parse_rows`, carrying the row index:
first qualifying row wins, returned with its lowered cells. -/
def findHeaderAux : Nat → List (List Str) → Option (Nat × List Str)
  | _, [] => none
  | i, row :: rest =>
    let lowered := lowerRow row
    if rowQualifies lowered then some (i, lowered)
    else findHeaderAux (i + 1) rest

/-- Unit-column predicate: `h == "unit" or h.startswith("unit ")`. -/
def unitPred (h : Str) : Bool := h = str "unit" || (str "unit ").isPrefixOf h

/-- Power-column predicate: `h == "power" or h.startswith("power ")`. -/
def powerPred (h : Str) : Bool := h = str "power" || (str "power ").isPrefixOf h

/-- Python `in` on strings: `pat` occurs as a contiguous substring. -/
def containsSub (pat : Str) : Str → Bool
  | [] => pat.isPrefixOf []
  | c :: cs => pat.isPrefixOf (c :: cs) || containsSub pat cs

/-- Reason-column predicate: `"reason" in h and "comment" in h`. -/
def reasonPred (h : Str) : Bool :=
  containsSub (str "reason") h && containsSub (str "comment") h

/-- The body of the data-row loop of `parse_rows`: `none` when the row is
skipped, `some r` when a record is emitted. -/
def processRow (d : PyDate) (uidx pidx : Nat) (ridx : Option Nat)
    (row : List Str) : Option Row :=
  if row.length ≤ uidx ∨ row.length ≤ pidx then none
  else
    let unit := norm_space (row.getD uidx [])
    let power := norm_space (row.getD pidx [])
    let reason :=
      match ridx with
      | some ri => if ri < row.length then norm_space (row.getD ri []) else []
      | none => []
    if unit = [] ∨ lowerStr unit = str "unit" then none
    else some { report_date := d, unit := unit, power := power, reason := reason }

/-- The per-table part of `parse_rows`: header discovery, column
resolution, then the data-row loop. -/
def classify_table (d : PyDate) (table : List (List Str)) : List Row :=
  match findHeaderAux 0 table with
  | none => []
  | some (hidx, headers) =>
    if headers = [] then []
    else
      match find_col_idx headers unitPred, find_col_idx headers powerPred with
      | some uidx, some pidx =>
        (table.drop (hidx + 1)).filterMap
          (processRow d uidx pidx (find_col_idx headers reasonPred))
      | _, _ => []

/-- `parse_rows`: a fresh extractor is constructed, fed the whole
document, and each extracted table is classified; results concatenate in
document order. -/
def parse_rows (report_date : PyDate) (html : List Tok) : List Row :=
  (((feed initState html).tables).map (classify_table report_date)).flatten

/-- Events of a well-formed `<td>` cell holding one run of text. -/
def cellToks (c : Str) : List Tok :=
  [Tok.startTag (str "td"), Tok.textData c, Tok.endTag (str "td")]

/-- Events of a well-formed `<tr>` row of simple cells. -/
def rowToks (r : List Str) : List Tok :=
  Tok.startTag (str "tr") :: (r.map cellToks).flatten ++ [Tok.endTag (str "tr")]

/-- Events of a well-formed `<table>` of simple rows. -/
def tableToks (rows : List (List Str)) : List Tok :=
  Tok.startTag (str "table") :: (rows.map rowToks).flatten
    ++ [Tok.endTag (str "table")]

/-- A token is neutral when, at table depth 0, the extractor ignores it:
anything except a start tag that lower-cases to `table`. -/
def neutralTok : Tok → Bool
  | .startTag t => decide (lowerStr t ≠ str "table")
  | .endTag _ => true
  | .textData _ => true

/-- The extractor state between top-level tables: depth 0, no row or cell
open, empty buffers, some list of finished tables. -/
def cleanState (tbls : List (List (List Str))) : ExtractorState :=
  { in_table := 0, in_tr := false, in_cell := false, cell_buf := [],
    current_row := [], current_table := [], tables := tbls }

/-- Two invocations of `parse_rows` on the same inputs, each constructing
its own fresh extractor (as the Python function does). -/
def run_twice (d : PyDate) (html : List Tok) : List Row × List Row :=
  (parse_rows d html, parse_rows d html)

/-- A table nested inside a cell of an outer table's row:
`<table><tr><td>A<table><tr><td>B</td></tr></table></td></tr></table>`. -/
def nestedDoc : List Tok :=
  [Tok.startTag (str "table"), Tok.startTag (str "tr"), Tok.startTag (str "td"),
   Tok.textData (str "A"),
   Tok.startTag (str "table"), Tok.startTag (str "tr"), Tok.startTag (str "td"),
   Tok.textData (str "B"), Tok.endTag (str "td"), Tok.endTag (str "tr"),
   Tok.endTag (str "table"),
   Tok.endTag (str "td"), Tok.endTag (str "tr"), Tok.endTag (str "table")]

/-- The spec's nested-table scenario: a table nested inside the reason
cell of an outer table's data row. -/
def nestedReasonDoc : List Tok :=
  Tok.startTag (str "table")
    :: rowToks [str "Unit", str "Power", str "Reason/Comment"]
    ++ [Tok.startTag (str "tr")]
    ++ cellToks (str "1") ++ cellToks (str "100")
    ++ [Tok.startTag (str "td"), Tok.textData (str "down "),
        Tok.startTag (str "table"), Tok.startTag (str "tr"),
        Tok.startTag (str "td"), Tok.textData (str "X"),
        Tok.endTag (str "td"), Tok.endTag (str "tr"), Tok.endTag (str "table"),
        Tok.textData (str " more"), Tok.endTag (str "td"),
        Tok.endTag (str "tr"), Tok.endTag (str "table")]

/-- A cell containing `Palo<br>Verde` followed by stray spaces. -/
def paloDoc : List Tok :=
  [Tok.startTag (str "table"), Tok.startTag (str "tr"), Tok.startTag (str "td"),
   Tok.textData (str "Palo"), Tok.startTag (str "br"),
   Tok.textData (str "Verde   "),
   Tok.endTag (str "td"), Tok.endTag (str "tr"), Tok.endTag (str "table")]

/-- A cell left open when its row closes: `<table><tr><td>A</tr>`. -/
def openCellDoc : List Tok :=
  [Tok.startTag (str "table"), Tok.startTag (str "tr"), Tok.startTag (str "td"),
   Tok.textData (str "A"), Tok.endTag (str "tr")]

/-- A cell restarted inside its row: `<table><tr><td>A<td>B</td></tr></table>`. -/
def restartCellDoc : List Tok :=
  [Tok.startTag (str "table"), Tok.startTag (str "tr"), Tok.startTag (str "td"),
   Tok.textData (str "A"), Tok.startTag (str "td"), Tok.textData (str "B"),
   Tok.endTag (str "td"), Tok.endTag (str "tr"), Tok.endTag (str "table")]

/-- Modelled from the spec: the serialized line shape the claim states —
`M/D/YYYY|unit|power|reason` where each field has every literal `|`
replaced by a single space and is otherwise emitted unchanged (no
stripping).  To be compared with `Row.to_psv`. -/
def to_psv_claimed (r : Row) : Str :=
  natStr r.report_date.month ++ ['/'] ++ natStr r.report_date.day ++ ['/']
    ++ natStr r.report_date.year
    ++ ['|'] ++ r.unit.map (fun c => if c = '|' then ' ' else c)
    ++ ['|'] ++ r.power.map (fun c => if c = '|' then ' ' else c)
    ++ ['|'] ++ r.reason.map (fun c => if c = '|' then ' ' else c)

/-- No two adjacent whitespace characters occur in the string. -/
def noAdjWs (s : Str) : Prop :=
  List.Chain' (fun a b => ¬(isWs a = true ∧ isWs b = true)) s

/-- A record whose unit field contains a literal delimiter character. -/
def pipeRow : Row :=
  { report_date := ⟨1999, 3, 15⟩, unit := str "|1", power := str "100",
    reason := [] }

/-- A scanner state inside an open cell holding buffered text. -/
def midCellState : ExtractorState :=
  { in_table := 1, in_tr := true, in_cell := true, cell_buf := [str "Palo"],
    current_row := [], current_table := [], tables := [] }

/-- A scanner state inside an open cell of a row holding one earlier cell. -/
def midCellRowState : ExtractorState :=
  { in_table := 1, in_tr := true, in_cell := true, cell_buf := [str "A"],
    current_row := [str "x"], current_table := [], tables := [] }

/-- A fresh extractor is the clean state with no finished tables. -/
theorem initState_eq_clean : initState = cleanState [] := rfl

/-- Feeding a concatenation of event streams processes them in sequence. -/
theorem feed_append (st : ExtractorState) (a b : List Tok) :
    feed st (a ++ b) = feed (feed st a) b := by
  simp [feed]

/-- At depth 0, a neutral token leaves the clean state unchanged. -/
theorem feedTok_neutral (t : Tok) (h : neutralTok t = true)
    (tbls : List (List (List Str))) :
    feedTok (cleanState tbls) t = cleanState tbls := by
  cases t with
  | startTag tag =>
    simp only [neutralTok, decide_eq_true_eq] at h
    simp [feedTok, handle_starttag, cleanState, h]
  | endTag tag =>
    simp [feedTok, handle_endtag, cleanState]
  | textData s =>
    simp [feedTok, handle_data, cleanState]

/-- At depth 0, a stream of neutral tokens leaves the clean state unchanged. -/
theorem feed_neutral (ts : List Tok) (h : ts.all neutralTok = true)
    (tbls : List (List (List Str))) :
    feed (cleanState tbls) ts = cleanState tbls := by
  induction ts with
  | nil => rfl
  | cons t ts ih =>
    simp only [List.all_cons, Bool.and_eq_true] at h
    show feed (feedTok (cleanState tbls) t) ts = cleanState tbls
    rw [feedTok_neutral t h.1, ih h.2]

/-- The header-detection predicate, spelled out: some normalized cell is
exactly `unit`, and some normalized cell equals or begins with `power`. -/
theorem rowQualifies_iff (l : List Str) :
    rowQualifies l = true ↔
      (∃ c ∈ l, c = str "unit")
      ∧ ∃ c ∈ l, c = str "power" ∨ (str "power").isPrefixOf c = true := by
  simp only [rowQualifies, Bool.and_eq_true, List.any_eq_true, decide_eq_true_eq,
    Bool.or_eq_true]
  constructor
  · rintro ⟨⟨c, hc, hcu⟩, ⟨c', hc', hp⟩⟩
    exact ⟨⟨c, hc, hcu⟩, ⟨c', hc', hp.symm⟩⟩
  · rintro ⟨⟨c, hc, hcu⟩, ⟨c', hc', hp⟩⟩
    exact ⟨⟨c, hc, hcu⟩, ⟨c', hc', hp.symm⟩⟩

/-- Characterization of the header-discovery loop when it succeeds: the
returned index points (relative to the start index) at the first row whose
lowered cells qualify, and the returned cells are that row's lowered cells. -/
theorem findHeaderAux_some (t : List (List Str)) :
    ∀ n i hs, findHeaderAux n t = some (i, hs) →
      n ≤ i ∧ i - n < t.length
      ∧ hs = lowerRow (t.getD (i - n) [])
      ∧ rowQualifies hs = true
      ∧ ∀ j, j < i - n → rowQualifies (lowerRow (t.getD j [])) = false := by
  induction t with
  | nil => intro n i hs h; simp [findHeaderAux] at h
  | cons row rest ih =>
    intro n i hs h
    by_cases hq : rowQualifies (lowerRow row) = true
    · simp only [findHeaderAux, hq, if_true] at h
      obtain ⟨hi, hhs⟩ := Prod.mk.injEq .. ▸ Option.some.injEq .. ▸ h
      subst hi; subst hhs
      refine ⟨Nat.le_refl n, ?_, ?_, hq, ?_⟩
      · simp [Nat.sub_self]
      · simp [Nat.sub_self]
      · intro j hj; omega
    · simp only [findHeaderAux, hq, if_false, Bool.false_eq_true] at h
      obtain ⟨h1, h2, h3, h4, h5⟩ := ih (n + 1) i hs h
      have hni : n + 1 ≤ i := h1
      have hsub : i - n = (i - (n + 1)) + 1 := by omega
      refine ⟨by omega, by simpa [hsub] using h2, by simpa [hsub] using h3, h4, ?_⟩
      intro j hj
      cases j with
      | zero => simpa using Bool.eq_false_iff.mpr hq
      | succ j' =>
        have : j' < i - (n + 1) := by omega
        simpa using h5 j' this

/-- If no row of the table qualifies, the header-discovery loop fails. -/
theorem findHeaderAux_none (t : List (List Str)) (n : Nat)
    (h : ∀ r ∈ t, rowQualifies (lowerRow r) = false) :
    findHeaderAux n t = none := by
  induction t generalizing n with
  | nil => rfl
  | cons row rest ih =>
    have h0 : rowQualifies (lowerRow row) = false := h row (by simp)
    simp only [findHeaderAux, h0, Bool.false_eq_true, if_false]
    exact ih (n + 1) (fun r hr => h r (by simp [hr]))

/-- Every whitespace character surviving the run-collapsing pass is the
single space it was rewritten to. -/
theorem mem_collapse_ws : ∀ (b : Bool) (s : Str), ∀ c ∈ collapse b s,
    isWs c = true → c = ' ' := by
  intro b s
  induction s generalizing b with
  | nil => intro c hc; simp [collapse] at hc
  | cons x xs ih =>
    intro c hc hw
    by_cases hx : isWs x = true
    · cases b with
      | true =>
        rw [show collapse true (x :: xs) = collapse true xs from by
          simp [collapse, hx]] at hc
        exact ih true c hc hw
      | false =>
        rw [show collapse false (x :: xs) = ' ' :: collapse true xs from by
          simp [collapse, hx]] at hc
        rcases List.mem_cons.mp hc with h | h
        · exact h
        · exact ih true c h hw
    · rw [show collapse b (x :: xs) = x :: collapse false xs from by
        simp [collapse, hx]] at hc
      rcases List.mem_cons.mp hc with h | h
      · exact absurd (h ▸ hw) hx
      · exact ih false c h hw

/-- After a whitespace run was just collapsed, the next emitted character
is not whitespace. -/
theorem head?_collapse_true : ∀ (s : Str) (c : Char),
    (collapse true s).head? = some c → isWs c = false := by
  intro s
  induction s with
  | nil => intro c h; simp [collapse] at h
  | cons x xs ih =>
    intro c h
    by_cases hx : isWs x = true
    · rw [show collapse true (x :: xs) = collapse true xs by simp [collapse, hx]] at h
      exact ih c h
    · rw [show collapse true (x :: xs) = x :: collapse false xs by
        simp [collapse, hx]] at h
      simp only [List.head?_cons, Option.some.injEq] at h
      subst h
      exact Bool.eq_false_iff.mpr hx

/-- The run-collapsing pass leaves no two adjacent whitespace characters. -/
theorem chain'_collapse : ∀ (b : Bool) (s : Str), noAdjWs (collapse b s) := by
  intro b s
  induction s generalizing b with
  | nil => simp [collapse, noAdjWs]
  | cons x xs ih =>
    by_cases hx : isWs x = true
    · cases b with
      | true => simpa [collapse, hx] using ih true
      | false =>
        rw [show collapse false (x :: xs) = ' ' :: collapse true xs by
          simp [collapse, hx]]
        refine List.chain'_cons'.mpr ⟨?_, ih true⟩
        intro y hy hcontra
        exact absurd hcontra.2 (Bool.eq_false_iff.mp (head?_collapse_true xs y hy))
    · rw [show collapse b (x :: xs) = x :: collapse false xs by simp [collapse, hx]]
      refine List.chain'_cons'.mpr ⟨?_, ih false⟩
      intro y _ hcontra
      exact absurd hcontra.1 hx

/-- The head of `dropWhile p` does not satisfy `p`. -/
theorem head?_dropWhile (p : Char → Bool) : ∀ (l : Str) (c : Char),
    (l.dropWhile p).head? = some c → p c = false := by
  intro l
  induction l with
  | nil => intro c h; simp at h
  | cons a as ih =>
    intro c h
    by_cases hp : p a = true
    · rw [List.dropWhile_cons_of_pos hp] at h
      exact ih c h
    · rw [List.dropWhile_cons_of_neg hp] at h
      simp only [List.head?_cons, Option.some.injEq] at h
      subst h
      exact Bool.eq_false_iff.mpr hp

/-- `dropWhile` keeps the last element, unless it drops everything. -/
theorem getLast?_dropWhile (p : Char → Bool) : ∀ l : Str,
    l.dropWhile p = [] ∨ (l.dropWhile p).getLast? = l.getLast? := by
  intro l
  induction l with
  | nil => exact Or.inl rfl
  | cons a as ih =>
    by_cases hp : p a = true
    · rw [List.dropWhile_cons_of_pos hp]
      by_cases hnil : as.dropWhile p = []
      · exact Or.inl hnil
      · right
        rcases ih with h | h
        · exact absurd h hnil
        · have hasne : as ≠ [] := by
            intro he; subst he; simp at hnil
          obtain ⟨b, bs, rfl⟩ := List.exists_cons_of_ne_nil hasne
          rw [h]
          simp
    · rw [List.dropWhile_cons_of_neg hp]
      exact Or.inr rfl

/-- Stripping only removes characters; membership is preserved. -/
theorem pyStrip_subset (s : Str) : ∀ c ∈ pyStrip s, c ∈ s := by
  intro c hc
  unfold pyStrip at hc
  rw [List.mem_reverse] at hc
  have h1 := (List.dropWhile_suffix isWs).subset hc
  rw [List.mem_reverse] at h1
  exact (List.dropWhile_suffix isWs).subset h1

/-- Adjacent-whitespace freedom is invariant under reversal. -/
theorem noAdjWs_reverse (s : Str) : noAdjWs s.reverse ↔ noAdjWs s := by
  unfold noAdjWs
  rw [List.chain'_reverse]
  constructor
  · intro h; exact h.imp (fun a b hab hc => hab ⟨hc.2, hc.1⟩)
  · intro h; exact h.imp (fun a b hab hc => hab ⟨hc.2, hc.1⟩)

/-- A suffix of an adjacent-whitespace-free string is itself free. -/
theorem noAdjWs_suffix {s t : Str} (h : noAdjWs t) (hs : s <:+ t) :
    noAdjWs s :=
  List.Chain'.suffix h hs

/-- Stripping preserves adjacent-whitespace freedom. -/
theorem noAdjWs_pyStrip (s : Str) (h : noAdjWs s) : noAdjWs (pyStrip s) := by
  have h1 : noAdjWs (s.dropWhile isWs) :=
    noAdjWs_suffix h (List.dropWhile_suffix isWs)
  have h2 : noAdjWs (s.dropWhile isWs).reverse := (noAdjWs_reverse _).mpr h1
  have h3 : noAdjWs ((s.dropWhile isWs).reverse.dropWhile isWs) :=
    noAdjWs_suffix h2 (List.dropWhile_suffix isWs)
  exact (noAdjWs_reverse _).mpr h3

/-- Any whitespace character in a normalized string is a single space. -/
theorem norm_space_ws_eq_space (s : Str) :
    ∀ c ∈ norm_space s, isWs c = true → c = ' ' := by
  intro c hc hw
  exact mem_collapse_ws false s c (pyStrip_subset _ c hc) hw

/-- A normalized string has no two adjacent whitespace characters. -/
theorem norm_space_noAdjWs (s : Str) : noAdjWs (norm_space s) :=
  noAdjWs_pyStrip _ (chain'_collapse false s)

/-- A normalized string does not begin with whitespace. -/
theorem norm_space_head (s : Str) :
    ∀ c, (norm_space s).head? = some c → isWs c = false := by
  intro c h
  unfold norm_space pyStrip at h
  rw [List.head?_reverse] at h
  rcases getLast?_dropWhile isWs (((collapse false s).dropWhile isWs).reverse)
    with hnil | heq
  · rw [hnil] at h; simp at h
  · rw [heq, List.getLast?_reverse] at h
    exact head?_dropWhile isWs _ c h

/-- A normalized string does not end with whitespace. -/
theorem norm_space_last (s : Str) :
    ∀ c, (norm_space s).getLast? = some c → isWs c = false := by
  intro c h
  unfold norm_space pyStrip at h
  rw [List.getLast?_reverse] at h
  exact head?_dropWhile isWs _ c h

/-- C5: a data row strictly after the header is skipped iff its length
does not cover both resolved column indices, or its normalized unit cell
is empty, or that cell is case-insensitively `unit`; otherwise exactly one
record is emitted carrying the caller's date and the normalized unit,
power and reason fields, reason defaulting to the empty string when the
reason column is unresolved or out of range; and a skipped row never
prevents later rows from being processed. -/
theorem c5_data_row_skip_iff (d : PyDate) (uidx pidx : Nat) (ridx : Option Nat)
    (row : List Str) (rest : List (List Str)) :
    (processRow d uidx pidx ridx row = none ↔
        (row.length ≤ uidx ∨ row.length ≤ pidx)
        ∨ norm_space (row.getD uidx []) = []
        ∨ lowerStr (norm_space (row.getD uidx [])) = str "unit")
    ∧ (∀ rec, processRow d uidx pidx ridx row = some rec →
        rec.report_date = d
        ∧ rec.unit = norm_space (row.getD uidx [])
        ∧ rec.power = norm_space (row.getD pidx [])
        ∧ (ridx = none → rec.reason = [])
        ∧ (∀ ri, ridx = some ri → row.length ≤ ri → rec.reason = [])
        ∧ (∀ ri, ridx = some ri → ri < row.length →
            rec.reason = norm_space (row.getD ri [])))
    ∧ ((row :: rest).filterMap (processRow d uidx pidx ridx) =
        (processRow d uidx pidx ridx row).toList
          ++ rest.filterMap (processRow d uidx pidx ridx)) := by
  refine ⟨?_, ?_, ?_⟩
  · constructor
    · intro h
      simp only [processRow] at h
      by_cases h1 : row.length ≤ uidx ∨ row.length ≤ pidx
      · exact Or.inl h1
      · rw [if_neg h1] at h
        by_cases h2 : norm_space (row.getD uidx []) = []
            ∨ lowerStr (norm_space (row.getD uidx [])) = str "unit"
        · exact Or.inr h2
        · rw [if_neg h2] at h; exact absurd h (by simp)
    · intro h
      simp only [processRow]
      by_cases h1 : row.length ≤ uidx ∨ row.length ≤ pidx
      · rw [if_pos h1]
      · rw [if_neg h1]
        rcases h with h | h
        · exact absurd h h1
        · rw [if_pos h]
  · intro rec h
    simp only [processRow] at h
    by_cases h1 : row.length ≤ uidx ∨ row.length ≤ pidx
    · rw [if_pos h1] at h; exact absurd h (by simp)
    · rw [if_neg h1] at h
      by_cases h2 : norm_space (row.getD uidx []) = []
          ∨ lowerStr (norm_space (row.getD uidx [])) = str "unit"
      · rw [if_pos h2] at h; exact absurd h (by simp)
      · rw [if_neg h2] at h
        injection h with h
        subst h
        refine ⟨rfl, rfl, rfl, ?_, ?_, ?_⟩
        · intro hr; rw [hr]
        · intro ri hr hle; rw [hr]; simp [Nat.not_lt.mpr hle]
        · intro ri hr hlt; rw [hr]; simp [hlt]
  · cases hv : processRow d uidx pidx ridx row <;>
      simp [List.filterMap_cons, hv]

/-- C5 witness: a ragged row (too short for the power column) is
skipped and the following valid row still yields its record. -/
theorem c5_data_row_skip_iff_witness :
    processRow ⟨1999, 1, 1⟩ 0 2 none [str "Unit 9"] = none
    ∧ [[str "Unit 9"], [str "Salem 1", str "x", str "97"]].filterMap
        (processRow ⟨1999, 1, 1⟩ 0 2 none)
      = [{ report_date := ⟨1999, 1, 1⟩, unit := str "Salem 1",
           power := str "97", reason := [] }] := by
  have h1 := (c5_data_row_skip_iff ⟨1999, 1, 1⟩ 0 2 none [str "Unit 9"]
    [[str "Salem 1", str "x", str "97"]]).1.mpr (Or.inl (by decide))
  have h3 := (c5_data_row_skip_iff ⟨1999, 1, 1⟩ 0 2 none [str "Unit 9"]
    [[str "Salem 1", str "x", str "97"]]).2.2
  refine ⟨h1, ?_⟩
  rw [h3, h1]
  decide

/-- C6: malformed markup never derails the scan — an end tag with no
matching open context leaves the scanner state unchanged (depth 0,
row-end with no open row, cell-end with no open cell, or a structurally
irrelevant tag), and the scan processes every token to end-of-input
(feeding a concatenation equals feeding the pieces in sequence); the
pipeline is a total function, so extraction plus classification always
returns a list. -/
theorem c6_unmatched_end_noop_total (st : ExtractorState) (t : Str)
    (a b : List Tok) :
    (st.in_table = 0 → handle_endtag t st = st)
    ∧ (lowerStr t = str "tr" → st.in_tr = false → handle_endtag t st = st)
    ∧ ((lowerStr t = str "td" ∨ lowerStr t = str "th") → st.in_cell = false →
        handle_endtag t st = st)
    ∧ (lowerStr t ≠ str "table" → lowerStr t ≠ str "tr" →
        lowerStr t ≠ str "td" → lowerStr t ≠ str "th" →
        handle_endtag t st = st)
    ∧ feed st (a ++ b) = feed (feed st a) b := by
  refine ⟨?_, ?_, ?_, ?_, feed_append st a b⟩
  · intro h0; simp +decide [handle_endtag, h0]
  · intro ht htr; simp +decide [handle_endtag, ht, htr]
  · rintro (ht | ht) hc <;> simp +decide [handle_endtag, ht, hc]
  · intro h1 h2 h3 h4; simp [handle_endtag, h1, h2, h3, h4]

/-- C6 witness: a `</div>` with no open context, and a `</table>` at
depth 0, are both no-ops on a fresh scanner. -/
theorem c6_unmatched_end_noop_total_witness :
    handle_endtag (str "div") (cleanState []) = cleanState []
    ∧ handle_endtag (str "table") (cleanState []) = cleanState [] := by
  refine ⟨?_, ?_⟩
  · exact (c6_unmatched_end_noop_total (cleanState []) (str "div") [] []).2.2.2.1
      (by decide) (by decide) (by decide) (by decide)
  · exact (c6_unmatched_end_noop_total (cleanState []) (str "table") [] []).1 rfl

/-- C7: extraction plus classification is a deterministic function of the
document text and date — two invocations on identical inputs, each owning
a fresh extractor, produce identical record lists and identical serialized
lines. -/
theorem c7_deterministic (d d' : PyDate) (h h' : List Tok)
    (hd : d = d') (hh : h = h') :
    (run_twice d h).1 = (run_twice d' h').2
    ∧ (run_twice d h).1.map Row.to_psv = (run_twice d' h').2.map Row.to_psv
    ∧ parse_rows d h = parse_rows d' h' := by
  subst hd; subst hh
  exact ⟨rfl, rfl, rfl⟩

/-- C3: the header chosen by the classifier is the first row (in order)
whose lower-cased, whitespace-normalized cells contain at least one cell
equal to `unit` and at least one cell equal to or beginning with `power`;
if no row qualifies, the table contributes zero records. -/
theorem c3_header_first_qualifying (d : PyDate) (table : List (List Str)) :
    (∀ l : List Str, rowQualifies l = true ↔
        (∃ c ∈ l, c = str "unit")
        ∧ ∃ c ∈ l, c = str "power" ∨ (str "power").isPrefixOf c = true)
    ∧ (∀ i hs, findHeaderAux 0 table = some (i, hs) →
        i < table.length
        ∧ hs = lowerRow (table.getD i [])
        ∧ rowQualifies (lowerRow (table.getD i [])) = true
        ∧ ∀ j, j < i → rowQualifies (lowerRow (table.getD j [])) = false)
    ∧ ((∀ r ∈ table, rowQualifies (lowerRow r) = false) →
        classify_table d table = []) := by
  refine ⟨rowQualifies_iff, ?_, ?_⟩
  · intro i hs h
    obtain ⟨_, h2, h3, h4, h5⟩ := findHeaderAux_some table 0 i hs h
    rw [Nat.sub_zero] at h2 h3
    refine ⟨h2, h3, h3 ▸ h4, ?_⟩
    intro j hj
    exact h5 j (by omega)
  · intro hall
    unfold classify_table
    rw [findHeaderAux_none table 0 hall]

/-- C3 witness: a table none of whose rows qualifies yields no records. -/
theorem c3_header_first_qualifying_witness :
    classify_table ⟨1999, 1, 1⟩ [[str "holiday"], [str "no data"]] = [] :=
  (c3_header_first_qualifying ⟨1999, 1, 1⟩ [[str "holiday"], [str "no data"]]).2.2
    (by decide)

/-- First-match column lookup fails when no header cell matches. -/
theorem find_col_idx_none (headers : List Str) (pred : Str → Bool)
    (h : ∀ x ∈ headers, pred x = false) :
    find_col_idx headers pred = none := by
  unfold find_col_idx
  rw [List.findIdx?_eq_none_iff]
  exact h

/-- Unfolding of `classify_table` once the header row is known. -/
theorem classify_table_eq_of_header (d : PyDate) (table : List (List Str))
    (i : Nat) (hs : List Str) (hh : findHeaderAux 0 table = some (i, hs)) :
    classify_table d table =
      if hs = [] then []
      else
        match find_col_idx hs unitPred, find_col_idx hs powerPred with
        | some uidx, some pidx =>
          (table.drop (i + 1)).filterMap
            (processRow d uidx pidx (find_col_idx hs reasonPred))
        | _, _ => [] := by
  unfold classify_table
  rw [hh]

/-- C4: for a table whose header row was detected, if the left-to-right
scan of the normalized header cells resolves no unit column (no cell equal
to `unit` or beginning with `unit `) or no power column (no cell equal to
`power` or beginning with `power `), the table contributes zero records
regardless of its data rows. -/
theorem c4_missing_column_no_records (d : PyDate) (table : List (List Str))
    (i : Nat) (hs : List Str)
    (hh : findHeaderAux 0 table = some (i, hs))
    (hcol : (∀ h ∈ hs, ¬(h = str "unit" ∨ (str "unit ").isPrefixOf h = true))
          ∨ (∀ h ∈ hs, ¬(h = str "power" ∨ (str "power ").isPrefixOf h = true))) :
    classify_table d table = [] := by
  rw [classify_table_eq_of_header d table i hs hh]
  by_cases hnil : hs = []
  · rw [if_pos hnil]
  · rw [if_neg hnil]
    rcases hcol with hcol | hcol
    · have hu : find_col_idx hs unitPred = none := by
        refine find_col_idx_none hs unitPred ?_
        intro x hx
        have := hcol x hx
        simp only [unitPred, Bool.or_eq_false_iff, decide_eq_false_iff_not]
        constructor
        · intro he; exact this (Or.inl he)
        · cases hp : (str "unit ").isPrefixOf x
          · rfl
          · exact absurd (Or.inr hp) this
      rw [hu]
    · have hp2 : find_col_idx hs powerPred = none := by
        refine find_col_idx_none hs powerPred ?_
        intro x hx
        have := hcol x hx
        simp only [powerPred, Bool.or_eq_false_iff, decide_eq_false_iff_not]
        constructor
        · intro he; exact this (Or.inl he)
        · cases hp : (str "power ").isPrefixOf x
          · rfl
          · exact absurd (Or.inr hp) this
      rw [hp2]
      cases find_col_idx hs unitPred <;> rfl

/-- C4 witness: the compound header `Power(%)` passes header detection but
resolves no power column, so the table yields no records. -/
theorem c4_missing_column_no_records_witness :
    classify_table ⟨1999, 1, 1⟩
      [[str "Unit", str "Power(%)", str "Reason"], [str "1", str "100", str "None"]]
      = [] :=
  c4_missing_column_no_records ⟨1999, 1, 1⟩
    [[str "Unit", str "Power(%)", str "Reason"], [str "1", str "100", str "None"]]
    0 [str "unit", str "power(%)", str "reason"] (by decide)
    (Or.inr (by decide))

/-- C1 counterexample: on the document consisting of exactly one table
with header row `["Unit","Power(%)","Reason"]` and single data row
`["1","100","None"]`, extraction plus classification returns the empty
list, not one record — `power(%)` neither equals `power` nor begins with
`power `, so the power column does not resolve. -/
theorem c1_counterexample :
    parse_rows ⟨1999, 1, 1⟩ (tableToks [[str "Unit", str "Power(%)", str "Reason"],
      [str "1", str "100", str "None"]]) = []
    ∧ parse_rows ⟨1999, 1, 1⟩ (tableToks [[str "Unit", str "Power(%)", str "Reason"],
        [str "1", str "100", str "None"]])
      ≠ [{ report_date := ⟨1999, 1, 1⟩, unit := str "1", power := str "100",
           reason := str "None" }] := by
  constructor
  · decide
  · decide

/-- C1 (amended): for every well-formed document that surrounds one table
having header row `["Unit","Power(%)","Reason"]` and data row
`["1","100","None"]` with table-free content, the pipeline returns zero
records (the power column fails to resolve); with header cell `"Power"`
in place of `"Power(%)"` it returns exactly one record with unit `1` and
power `100`, whose reason is the empty string because the `Reason` header
contains no `comment`. -/
theorem c1_power_percent_header (d : PyDate) (pre post : List Tok)
    (hpre : pre.all neutralTok = true) (hpost : post.all neutralTok = true) :
    parse_rows d (pre ++ tableToks [[str "Unit", str "Power(%)", str "Reason"],
        [str "1", str "100", str "None"]] ++ post) = []
    ∧ parse_rows d (pre ++ tableToks [[str "Unit", str "Power", str "Reason"],
        [str "1", str "100", str "None"]] ++ post)
      = [{ report_date := d, unit := str "1", power := str "100",
           reason := [] }] := by
  constructor
  · unfold parse_rows
    rw [feed_append, feed_append, initState_eq_clean, feed_neutral pre hpre]
    have hmid : feed (cleanState [])
        (tableToks [[str "Unit", str "Power(%)", str "Reason"],
          [str "1", str "100", str "None"]])
        = cleanState [[[str "Unit", str "Power(%)", str "Reason"],
            [str "1", str "100", str "None"]]] := by decide
    rw [hmid, feed_neutral post hpost]
    rfl
  · unfold parse_rows
    rw [feed_append, feed_append, initState_eq_clean, feed_neutral pre hpre]
    have hmid : feed (cleanState [])
        (tableToks [[str "Unit", str "Power", str "Reason"],
          [str "1", str "100", str "None"]])
        = cleanState [[[str "Unit", str "Power", str "Reason"],
            [str "1", str "100", str "None"]]] := by decide
    rw [hmid, feed_neutral post hpost]
    rfl

/-- C1 witness: the amended statement at the bare document (no
surrounding content). -/
theorem c1_power_percent_header_witness :
    parse_rows ⟨1999, 7, 4⟩ ([] ++ tableToks [[str "Unit", str "Power(%)", str "Reason"],
        [str "1", str "100", str "None"]] ++ []) = []
    ∧ parse_rows ⟨1999, 7, 4⟩ ([] ++ tableToks [[str "Unit", str "Power", str "Reason"],
        [str "1", str "100", str "None"]] ++ [])
      = [{ report_date := ⟨1999, 7, 4⟩, unit := str "1", power := str "100",
           reason := [] }] :=
  c1_power_percent_header ⟨1999, 7, 4⟩ [] [] rfl rfl

/-- C2 counterexample: a document with a table nested inside a cell of an
outer table's row produces ONE entry in the extractor's table list, not
two — the nested rows are folded into the single outer capture. -/
theorem c2_counterexample :
    (feed initState nestedDoc).tables = [[[str "B"]]]
    ∧ (feed initState nestedDoc).tables.length = 1
    ∧ (feed initState nestedDoc).tables.length ≠ 2 := by
  refine ⟨by decide, by decide, by decide⟩

/-- C2 (amended): a nested `<table>` start only increments the depth
counter (it does not open a new capture context), and a nested `</table>`
only decrements it; hence a document with a table nested inside the
reason cell of an outer table's row yields exactly one entry in the table
list, holding the merged rows, and only that single merged table is
classified. -/
theorem c2_nested_table_merged (pre post : List Tok)
    (hpre : pre.all neutralTok = true) (hpost : post.all neutralTok = true)
    (st : ExtractorState) (hst : 1 ≤ st.in_table) :
    (feed initState (pre ++ nestedReasonDoc ++ post)).tables
      = [[[str "Unit", str "Power", str "Reason/Comment"], [str "X"]]]
    ∧ handle_starttag (str "table") st = { st with in_table := st.in_table + 1 }
    ∧ (2 ≤ st.in_table →
        handle_endtag (str "table") st
          = { st with in_table := st.in_table - 1 }) := by
  refine ⟨?_, ?_, ?_⟩
  · rw [feed_append, feed_append, initState_eq_clean, feed_neutral pre hpre]
    have hmid : feed (cleanState []) nestedReasonDoc
        = cleanState [[[str "Unit", str "Power", str "Reason/Comment"],
            [str "X"]]] := by decide
    rw [hmid, feed_neutral post hpost]
    rfl
  · have h1 : ¬(st.in_table + 1 = 1) := by omega
    simp +decide [handle_starttag, h1]
  · intro h2
    have h1 : ¬(st.in_table - 1 = 0) := by omega
    have h3 : 1 ≤ st.in_table := hst
    simp +decide [handle_endtag, h1, h3]

/-- C2 witness: the amended statement at the bare nested document and a
depth-2 scanner state. -/
theorem c2_nested_table_merged_witness :
    (feed initState ([] ++ nestedReasonDoc ++ [])).tables
      = [[[str "Unit", str "Power", str "Reason/Comment"], [str "X"]]]
    ∧ handle_endtag (str "table")
        { cleanState [] with in_table := 2 }
      = { cleanState [] with in_table := 1 } := by
  refine ⟨(c2_nested_table_merged [] [] rfl rfl
      { cleanState [] with in_table := 2 } (by decide)).1, ?_⟩
  exact (c2_nested_table_merged [] [] rfl rfl
      { cleanState [] with in_table := 2 } (by decide)).2.2 (by decide)

/-- C8 counterexample: `Row.to_psv` strips each field after replacing the
delimiter, so a record whose unit is `|1` serializes its unit as `1`, not
as the claim's ` 1` (replacement only); the claimed line shape and the
implemented line differ. -/
theorem c8_counterexample :
    Row.to_psv pipeRow = str "3/15/1999|1|100|"
    ∧ to_psv_claimed pipeRow = str "3/15/1999| 1|100|"
    ∧ Row.to_psv pipeRow ≠ to_psv_claimed pipeRow := by
  refine ⟨by decide, by decide, by decide⟩

/-- C8 (amended): every record serializes to
`M/D/YYYY|unit|power|reason` where each field has every literal `|`
replaced by a single space AND is then stripped of leading/trailing
whitespace; no `|` survives inside a serialized field; and the §8
scenario serializes to exactly the two claimed lines. -/
theorem c8_serialization (r : Row) (s : Str) :
    Row.to_psv r =
      natStr r.report_date.month ++ ['/'] ++ natStr r.report_date.day ++ ['/']
        ++ natStr r.report_date.year
        ++ ['|'] ++ pyStrip (r.unit.map (fun c => if c = '|' then ' ' else c))
        ++ ['|'] ++ pyStrip (r.power.map (fun c => if c = '|' then ' ' else c))
        ++ ['|'] ++ pyStrip (r.reason.map (fun c => if c = '|' then ' ' else c))
    ∧ '|' ∉ safe_psv_field s
    ∧ (parse_rows ⟨1999, 3, 15⟩
        (tableToks [[str "Unit", str "Power", str "Reason/Comment"],
          [str "Unit 1", str "97", str "N/A"],
          [str "Unit 2", str "0", str "Refueling Outage"]])).map Row.to_psv
      = [str "3/15/1999|Unit 1|97|N/A",
         str "3/15/1999|Unit 2|0|Refueling Outage"] := by
  refine ⟨rfl, ?_, by decide⟩
  intro hc
  have h1 : '|' ∈ s.map (fun c => if c = '|' then ' ' else c) :=
    pyStrip_subset _ _ hc
  obtain ⟨x, _, hx⟩ := List.mem_map.mp h1
  by_cases hxe : x = '|'
  · rw [if_pos hxe] at hx
    exact absurd hx (by decide)
  · rw [if_neg hxe] at hx
    exact hxe hx

/-- C8 witness: the amended serialization at a concrete record and field. -/
theorem c8_serialization_witness :
    '|' ∉ safe_psv_field (str "a|b")
    ∧ Row.to_psv pipeRow
      = natStr pipeRow.report_date.month ++ ['/']
        ++ natStr pipeRow.report_date.day ++ ['/']
        ++ natStr pipeRow.report_date.year
        ++ ['|'] ++ pyStrip (pipeRow.unit.map (fun c => if c = '|' then ' ' else c))
        ++ ['|'] ++ pyStrip (pipeRow.power.map (fun c => if c = '|' then ' ' else c))
        ++ ['|'] ++ pyStrip (pipeRow.reason.map (fun c => if c = '|' then ' ' else c)) :=
  ⟨(c8_serialization pipeRow (str "a|b")).2.1,
   (c8_serialization pipeRow (str "a|b")).1⟩

/-- C9: while inside a table cell, a `br` or `p` start tag appends a
single space to the cell buffer; at cell end the buffered text is joined
and whitespace-normalized (every surviving whitespace character is a
single space, no two adjacent, none leading or trailing) and appended to
the current row; concretely a cell `Palo<br>Verde` with stray trailing
spaces extracts as `Palo Verde`. -/
theorem c9_break_space_norm (st : ExtractorState) (t u : Str) (s : Str)
    (h1 : 1 ≤ st.in_table) :
    (st.in_cell = true → (lowerStr t = str "br" ∨ lowerStr t = str "p") →
        handle_starttag t st = { st with cell_buf := st.cell_buf ++ [[' ']] })
    ∧ (st.in_tr = true → st.in_cell = true →
        (lowerStr u = str "td" ∨ lowerStr u = str "th") →
        handle_endtag u st
          = { st with in_cell := false,
                      current_row := st.current_row
                        ++ [norm_space st.cell_buf.flatten],
                      cell_buf := [] })
    ∧ (∀ c ∈ norm_space s, isWs c = true → c = ' ')
    ∧ noAdjWs (norm_space s)
    ∧ (∀ c, (norm_space s).head? = some c → isWs c = false)
    ∧ (∀ c, (norm_space s).getLast? = some c → isWs c = false)
    ∧ (feed initState paloDoc).tables = [[[str "Palo Verde"]]] := by
  refine ⟨?_, ?_, norm_space_ws_eq_space s, norm_space_noAdjWs s,
    norm_space_head s, norm_space_last s, by decide⟩
  · rintro hc (ht | ht) <;> simp +decide [handle_starttag, h1, hc, ht]
  · rintro htr hc (hu | hu) <;> simp +decide [handle_endtag, h1, htr, hc, hu]

/-- C9 witness: a `br` inside an open cell appends one space to the
buffer of a concrete scanner state. -/
theorem c9_break_space_norm_witness :
    handle_starttag (str "br") midCellState
      = { midCellState with cell_buf := midCellState.cell_buf ++ [[' ']] } :=
  (c9_break_space_norm midCellState (str "br") (str "td") [] (by decide)).1
    rfl (Or.inl (by decide))

/-- C10 counterexample: a `td` start tag encountered while the scanner is
still inside a cell but no longer inside a row (the row was closed by a
premature `</tr>`) does NOT reset the cell buffer — the buffered text of
the unclosed cell is retained, not discarded. -/
theorem c10_counterexample :
    (feed initState openCellDoc).in_cell = true
    ∧ (feed initState (openCellDoc ++ [Tok.startTag (str "td")])).cell_buf
        = [str "A"]
    ∧ (feed initState (openCellDoc ++ [Tok.startTag (str "td")])).cell_buf
        ≠ [] := by
  refine ⟨by decide, by decide, by decide⟩

/-- C10 (amended): when a cell-start tag (`td`/`th`) is encountered while
the scanner is inside a row and already inside a cell, the text buffered
for the unclosed cell is discarded — the buffer resets to empty and the
current row's cell list is unchanged, so the unclosed cell contributes no
entry; concretely `<td>A<td>B</td>` yields only the cell `B`.  Outside a
row the reset does not happen. -/
theorem c10_cell_restart_discards (st : ExtractorState) (t : Str)
    (h1 : 1 ≤ st.in_table) (h2 : st.in_tr = true) (h3 : st.in_cell = true)
    (h4 : lowerStr t = str "td" ∨ lowerStr t = str "th") :
    handle_starttag t st = { st with in_cell := true, cell_buf := [] }
    ∧ (handle_starttag t st).current_row = st.current_row
    ∧ (feed initState restartCellDoc).tables = [[[str "B"]]] := by
  refine ⟨?_, ?_, by decide⟩
  · rcases h4 with h | h <;> simp +decide [handle_starttag, h1, h2, h3, h]
  · rcases h4 with h | h <;> simp +decide [handle_starttag, h1, h2, h3, h]

/-- C10 witness: the amended statement at a concrete scanner state with a
non-empty buffer. -/
theorem c10_cell_restart_discards_witness :
    handle_starttag (str "td") midCellRowState
      = { midCellRowState with in_cell := true, cell_buf := [] }
    ∧ (handle_starttag (str "td") midCellRowState).current_row
      = midCellRowState.current_row :=
  ⟨(c10_cell_restart_discards midCellRowState (str "td") (by decide) rfl rfl
      (Or.inl (by decide))).1,
   (c10_cell_restart_discards midCellRowState (str "td") (by decide) rfl rfl
      (Or.inl (by decide))).2.1⟩

/-- C7 witness: the two runs agree on a concrete document. -/
theorem c7_deterministic_witness :
    (run_twice ⟨1999, 1, 1⟩ (tableToks [[str "Unit", str "Power"],
      [str "1", str "100"]])).1
    = (run_twice ⟨1999, 1, 1⟩ (tableToks [[str "Unit", str "Power"],
      [str "1", str "100"]])).2 :=
  (c7_deterministic ⟨1999, 1, 1⟩ ⟨1999, 1, 1⟩ _ _ rfl rfl).1

end Scraper
